import Mathlib

/-!
Shallow embedding of the TBTK tight-binding core: the `HoppingAmplitude`
value type (src/Lib/include/Core/TBTK/HoppingAmplitude.h), the
`DiagonalizationSolver` driver (src/TBTK/calc/TightBindingLib/include/
DiagonalizationSolver.h) and the `DOS` property container
(src/TBTK/calc/TightBindingLib/src/DOS.cpp).

C++ `std::complex<double>` values are embedded as pairs of rationals,
`double` as a rational, and raw C pointers that may legally be null as
`Option` values (`none` models the null pointer).  Fallible lookups
return `Option`.
-/

namespace TBTK

/-- Modelled from the spec: `Index` (Index.h is not part of the sources
under study) is an ordered sequence of signed integers identifying a
basis state. -/
abbrev Index := List Int

/-- Embedding of `std::complex<double>`: a pair (real part, imaginary part). -/
abbrev Cplx := ℚ × ℚ

/-- Complex conjugation on the embedded complex numbers. -/
def Cplx.conj (z : Cplx) : Cplx := (z.1, -z.2)

/-- Complex addition on the embedded complex numbers. -/
def Cplx.add (a b : Cplx) : Cplx := (a.1 + b.1, a.2 + b.2)

/-- Modelled from the spec: serialization modes of the `Serializable`
interface (Serializable.h is not part of the sources under study). -/
inductive Mode where
  | debug : Mode
  | json : Mode
deriving DecidableEq

/-- Embedding of `TBTK::HoppingAmplitude` (HoppingAmplitude.h, private
fields at lines 175-192): a fixed amplitude value, an optional callback
(the C++ raw function pointer, null modelled as `none`), and the two
indices.  The callback takes the to-Index and the from-Index. -/
structure HoppingAmplitude where
  amplitude : Cplx
  amplitudeCallback : Option (Index → Index → Cplx)
  fromIndex : Index
  toIndex : Index

/-- Embedding of `HoppingAmplitude::getAmplitude` (HoppingAmplitude.h
lines 195-200): if the callback is non-null it is evaluated at
(toIndex, fromIndex), otherwise the stored fixed value is returned. -/
def HoppingAmplitude.getAmplitude (h : HoppingAmplitude) : Cplx :=
  match h.amplitudeCallback with
  | some f => f h.toIndex h.fromIndex
  | none => h.amplitude

/-- Embedding of `HoppingAmplitude::getIsCallbackDependent`
(HoppingAmplitude.h lines 216-221): false when the callback pointer is
null, true otherwise. -/
def HoppingAmplitude.getIsCallbackDependent (h : HoppingAmplitude) : Bool :=
  match h.amplitudeCallback with
  | none => false
  | some _ => true

/-- Embedding of `HoppingAmplitude::getToIndex` (lines 208-210). -/
def HoppingAmplitude.getToIndex (h : HoppingAmplitude) : Index := h.toIndex

/-- Embedding of `HoppingAmplitude::getFromIndex` (lines 212-214). -/
def HoppingAmplitude.getFromIndex (h : HoppingAmplitude) : Index := h.fromIndex

/-- Modelled from the spec: `HoppingAmplitude::getHermitianConjugate`
(declared at HoppingAmplitude.h line 107; its body is not part of the
sources under study).  The spec describes the Hermitian conjugate as the
mirrored entry with toIndex and fromIndex swapped and the complex value
conjugated; for a callback-dependent amplitude the mirrored callback
evaluates the original at the swapped indices and conjugates. -/
def HoppingAmplitude.getHermitianConjugate (h : HoppingAmplitude) : HoppingAmplitude :=
  { amplitude := Cplx.conj h.amplitude
    amplitudeCallback :=
      h.amplitudeCallback.map (fun f => fun toIx frIx => Cplx.conj (f frIx toIx))
    fromIndex := h.toIndex
    toIndex := h.fromIndex }

/-- Embedding of `HoppingAmplitude::operator+(HermitianConjugate)`
(HoppingAmplitude.h lines 202-206): `h + HC` builds the tuple of the
amplitude and its Hermitian conjugate. -/
def HoppingAmplitude.plusHC (h : HoppingAmplitude) : HoppingAmplitude × HoppingAmplitude :=
  (h, h.getHermitianConjugate)

/-- Modelled from the spec: `Index::toString` (Index.h is not part of
the sources under study); renders the component list. -/
def Index.toStr (ix : Index) : String := toString ix

/-- Rendering of a rational, standing in for `std::to_string(double)`. -/
def ratStr (q : ℚ) : String := toString q

/-- Embedding of `HoppingAmplitude::toString` (HoppingAmplitude.h lines
230-240): concatenates the real and imaginary parts of the stored fixed
`amplitude` field with the rendered toIndex and fromIndex.  The callback
is never consulted. -/
def HoppingAmplitude.toString (h : HoppingAmplitude) : String :=
  "(" ++ ratStr h.amplitude.1 ++ ", " ++ ratStr h.amplitude.2 ++ ")"
    ++ ", " ++ Index.toStr h.toIndex
    ++ ", " ++ Index.toStr h.fromIndex

/-- Modelled from the spec: the sealed `Model` consulted by the solver
(Model.h is not part of the sources under study).  `basisList` is the
sealed bijective map from basis position 0..N-1 to concrete Index, and
`hoppingAmplitudes` the declared amplitude entries. -/
structure Model where
  basisList : List Index
  hoppingAmplitudes : List HoppingAmplitude

/-- Modelled from the spec: `Model::getBasisSize` is the number N of
basis positions of the sealed basis. -/
def Model.getBasisSize (m : Model) : Nat := m.basisList.length

/-- Modelled from the spec: `Model::getBasisIndex` resolves a concrete
Index to its basis position, failing with a not-found condition (here
`none`) when the Index was never declared in the basis. -/
def Model.getBasisIndex (m : Model) (ix : Index) : Option Nat :=
  m.basisList.findIdx? (fun j => decide (j = ix))

/-- Embedding of `TBTK::DiagonalizationSolver` (DiagonalizationSolver.h
lines 57-76): the model pointer and the three buffer pointers (null
modelled as `none`), the self-consistency iteration ceiling, and the
self-consistency callback pointer.  The C++ callback receives the solver
and is external user code; it is modelled as an oracle giving the
callback's boolean answer after the k-th completed solve. -/
structure DiagonalizationSolver where
  model : Option Model
  hamiltonian : Option (List Cplx)
  eigenValues : Option (List ℚ)
  eigenVectors : Option (List Cplx)
  maxIterations : Int
  scCallback : Option (Nat → Bool)

/-- Modelled from the spec: the `DiagonalizationSolver` constructor
(DiagonalizationSolver.cpp is not part of the sources under study); all
buffer and callback pointers start null, no model is set, and the
iteration ceiling starts at its default. -/
def DiagonalizationSolver.new : DiagonalizationSolver :=
  { model := none
    hamiltonian := none
    eigenValues := none
    eigenVectors := none
    maxIterations := 50
    scCallback := none }

/-- Embedding of `DiagonalizationSolver::setModel`
(DiagonalizationSolver.h lines 87-89): stores the model pointer.  No
other member is touched. -/
def DiagonalizationSolver.setModel (s : DiagonalizationSolver) (m : Model) :
    DiagonalizationSolver :=
  { s with model := some m }

/-- Embedding of `DiagonalizationSolver::setSCCallback` (lines 91-93). -/
def DiagonalizationSolver.setSCCallback (s : DiagonalizationSolver)
    (cb : Option (Nat → Bool)) : DiagonalizationSolver :=
  { s with scCallback := cb }

/-- Embedding of `DiagonalizationSolver::setMaxIterations` (lines 95-97). -/
def DiagonalizationSolver.setMaxIterations (s : DiagonalizationSolver)
    (n : Int) : DiagonalizationSolver :=
  { s with maxIterations := n }

/-- Embedding of `DiagonalizationSolver::getEigenValues`
(DiagonalizationSolver.h lines 99-101): returns the stored eigenvalue
buffer pointer unconditionally, with no state check. -/
def DiagonalizationSolver.getEigenValues (s : DiagonalizationSolver) :
    Option (List ℚ) := s.eigenValues

/-- Embedding of `DiagonalizationSolver::getEigenVectors`
(DiagonalizationSolver.h lines 103-105): returns the stored eigenvector
buffer pointer unconditionally, with no state check. -/
def DiagonalizationSolver.getEigenVectors (s : DiagonalizationSolver) :
    Option (List Cplx) := s.eigenVectors

/-- Embedding of `DiagonalizationSolver::getModel` (lines 111-113). -/
def DiagonalizationSolver.getModel (s : DiagonalizationSolver) :
    Option Model := s.model

/-- Embedding of `DiagonalizationSolver::getAmplitude`
(DiagonalizationSolver.h lines 107-109): reads
`eigenVectors[getBasisSize()*state + getBasisIndex(index)]`.  The basis
lookup is the spec-modelled `Model.getBasisIndex`; a failed lookup, a
null eigenvector buffer or an out-of-range read make the call fail
(`none`). -/
def DiagonalizationSolver.getAmplitude (s : DiagonalizationSolver)
    (state : Nat) (index : Index) : Option Cplx :=
  match s.model with
  | none => none
  | some m =>
    match m.getBasisIndex index with
    | none => none
    | some b =>
      match s.eigenVectors with
      | none => none
      | some ev => ev.get? (m.getBasisSize * state + b)

/-- Adds a value into a flat matrix buffer at a given offset. -/
def addAt (h : List Cplx) (k : Nat) (v : Cplx) : List Cplx :=
  h.set k (Cplx.add (h.getD k ((0 : ℚ), (0 : ℚ))) v)

/-- Modelled from the spec: dense-Hamiltonian assembly performed by
`DiagonalizationSolver::init`/`update` (DiagonalizationSolver.cpp is not
part of the sources under study).  Starting from an N x N zero buffer,
every amplitude is evaluated and added at its basis position pair. -/
def Model.assembleHamiltonian (m : Model) : List Cplx :=
  m.hoppingAmplitudes.foldl
    (fun acc h =>
      match m.getBasisIndex h.toIndex, m.getBasisIndex h.fromIndex with
      | some r, some c => addAt acc (m.getBasisSize * r + c) h.getAmplitude
      | _, _ => acc)
    (List.replicate (m.getBasisSize * m.getBasisSize) ((0 : ℚ), (0 : ℚ)))

/-- Modelled from the spec: `DiagonalizationSolver::init` allocates the
Hamiltonian and eigen buffers sized to the basis size and populates the
Hamiltonian from the amplitudes. -/
def DiagonalizationSolver.init (s : DiagonalizationSolver) :
    DiagonalizationSolver :=
  match s.model with
  | none => s
  | some m => { s with hamiltonian := some m.assembleHamiltonian }

/-- Modelled from the spec: `DiagonalizationSolver::update` rebuilds the
Hamiltonian, re-evaluating callback-dependent amplitudes. -/
def DiagonalizationSolver.update (s : DiagonalizationSolver) :
    DiagonalizationSolver :=
  match s.model with
  | none => s
  | some m => { s with hamiltonian := some m.assembleHamiltonian }

/-- Modelled from the spec: the raw (unsorted) spectrum an eigensolver
provider reports for an N x N dense Hamiltonian.  No specific algorithm
is mandated by the spec; this provider reports the real parts of the
diagonal entries. -/
def diagonalSpectrum (n : Nat) (h : List Cplx) : List ℚ :=
  (List.range n).map (fun i => (h.getD (i * n + i) ((0 : ℚ), (0 : ℚ))).1)

/-- Modelled from the spec: the eigenvector buffer reported by the
eigensolver provider, an N x N flat complex buffer. -/
def identityVectors (n : Nat) : List Cplx :=
  (List.range (n * n)).map
    (fun k => if k / n = k % n then ((1 : ℚ), (0 : ℚ)) else ((0 : ℚ), (0 : ℚ)))

/-- Modelled from the spec: `DiagonalizationSolver::solve` invokes the
eigensolver on the built Hamiltonian, storing the full spectrum in
ascending order together with the eigenvector buffer. -/
def DiagonalizationSolver.solve (s : DiagonalizationSolver) :
    DiagonalizationSolver :=
  match s.model, s.hamiltonian with
  | some m, some h =>
    { s with
      eigenValues :=
        some (List.insertionSort (fun a b => a ≤ b) (diagonalSpectrum m.getBasisSize h))
      eigenVectors := some (identityVectors m.getBasisSize) }
  | _, _ => s

/-- Modelled from the spec: the self-consistency loop of
`DiagonalizationSolver::run`.  After the k-th completed solve the
callback decides whether to stop; otherwise the driver rebuilds the
Hamiltonian and re-solves while iteration budget remains.  Returns the
final state and the total number of solves performed. -/
def scLoop (cb : Nat → Bool) :
    Nat → DiagonalizationSolver × Nat → DiagonalizationSolver × Nat
  | 0, acc => acc
  | rem + 1, (s, count) =>
    if cb count then (s, count)
    else scLoop cb rem (s.update.solve, count + 1)

/-- Modelled from the spec: `DiagonalizationSolver::run`
(DiagonalizationSolver.cpp is not part of the sources under study).
Allocates and builds the Hamiltonian, solves once, and, only when a
self-consistency callback is configured, keeps re-solving until the
callback reports convergence or `maxIterations` solves have been done.
Returns the final state and the number of solves performed. -/
def DiagonalizationSolver.run (s : DiagonalizationSolver) :
    DiagonalizationSolver × Nat :=
  let s1 := s.init.solve
  match s.scCallback with
  | none => (s1, 1)
  | some cb => scLoop cb (s.maxIterations.toNat - 1) (s1, 1)

/-- Embedding of `TBTK::Property::DOS` (DOS.cpp lines 11-18): bounds,
resolution and the data buffer. -/
structure DOS where
  lowerBound : ℚ
  upperBound : ℚ
  resolution : Int
  data : List ℚ

/-- Embedding of the `DOS::DOS` constructor (DOS.cpp lines 11-18):
stores the bounds and resolution, allocates a buffer of `resolution`
entries and zero-initializes every entry. -/
def DOS.new (lowerBound upperBound : ℚ) (resolution : Int) : DOS :=
  { lowerBound := lowerBound
    upperBound := upperBound
    resolution := resolution
    data := List.replicate resolution.toNat 0 }

/-- Unary encoding of a natural number, terminated by a marker. -/
def encodeNat : Nat → List Char
  | 0 => [';']
  | n + 1 => '1' :: encodeNat n

/-- Decoder for `encodeNat`; returns the value and the unread rest. -/
def decodeNat : List Char → Option (Nat × List Char)
  | ';' :: rest => some (0, rest)
  | '1' :: rest => (decodeNat rest).map (fun p => (p.1 + 1, p.2))
  | _ => none

/-- Sign-then-magnitude encoding of an integer. -/
def encodeInt (i : Int) : List Char :=
  if i < 0 then '-' :: encodeNat i.natAbs else '+' :: encodeNat i.toNat

/-- Decoder for `encodeInt`. -/
def decodeInt : List Char → Option (Int × List Char)
  | '-' :: rest => (decodeNat rest).map (fun p => (-(p.1 : Int), p.2))
  | '+' :: rest => (decodeNat rest).map (fun p => ((p.1 : Int), p.2))
  | _ => none

/-- Numerator-then-denominator encoding of a rational. -/
def encodeRat (q : ℚ) : List Char := encodeInt q.num ++ encodeNat q.den

/-- Decoder for `encodeRat`. -/
def decodeRat (l : List Char) : Option (ℚ × List Char) :=
  match decodeInt l with
  | none => none
  | some (n, r) =>
    match decodeNat r with
    | none => none
    | some (d, r') => some ((n : ℚ) / (d : ℚ), r')

/-- Element-wise encoding of a list of integers. -/
def encodeInts : List Int → List Char
  | [] => []
  | i :: is => encodeInt i ++ encodeInts is

/-- Decoder reading a known number of integers. -/
def decodeInts : Nat → List Char → Option (List Int × List Char)
  | 0, l => some ([], l)
  | k + 1, l =>
    match decodeInt l with
    | none => none
    | some (i, r) =>
      match decodeInts k r with
      | none => none
      | some (is, r') => some (i :: is, r')

/-- Length-prefixed encoding of an Index. -/
def encodeIndex (ix : Index) : List Char :=
  encodeNat ix.length ++ encodeInts ix

/-- Decoder for `encodeIndex`. -/
def decodeIndex (l : List Char) : Option (Index × List Char) :=
  match decodeNat l with
  | none => none
  | some (k, r) => decodeInts k r

/-- Modelled from the spec: `HoppingAmplitude::serialize` (declared at
HoppingAmplitude.h lines 161-169; its body is not part of the sources
under study).  A HoppingAmplitude serializes as a reversible string
encoding of the tuple (complex value or callback marker, toIndex,
fromIndex). -/
def HoppingAmplitude.serialize (h : HoppingAmplitude) (mode : Mode) : String :=
  match mode, h.amplitudeCallback with
  | _, some _ =>
    String.mk ('c' :: (encodeIndex h.toIndex ++ encodeIndex h.fromIndex))
  | _, none =>
    String.mk ('v' :: (encodeRat h.amplitude.1 ++ encodeRat h.amplitude.2
      ++ encodeIndex h.toIndex ++ encodeIndex h.fromIndex))

/-- Stand-in callback installed when deserializing a callback-marked
entry; the function itself cannot be transported through a string. -/
def placeholderCallback : Index → Index → Cplx := fun _ _ => ((0 : ℚ), (0 : ℚ))

/-- Modelled from the spec: the deserializing `HoppingAmplitude`
constructor (declared at HoppingAmplitude.h lines 92-102; its body is not
part of the sources under study).  Parses the string produced by
`serialize` back into an equivalent entry. -/
def HoppingAmplitude.fromSerialization (s : String) (mode : Mode) :
    Option HoppingAmplitude :=
  match mode, s.data with
  | _, 'c' :: rest =>
    match decodeIndex rest with
    | none => none
    | some (toIx, r) =>
      match decodeIndex r with
      | none => none
      | some (frIx, _) =>
        some { amplitude := ((0 : ℚ), (0 : ℚ)),
               amplitudeCallback := some placeholderCallback,
               fromIndex := frIx, toIndex := toIx }
  | _, 'v' :: rest =>
    match decodeRat rest with
    | none => none
    | some (re, r1) =>
      match decodeRat r1 with
      | none => none
      | some (im, r2) =>
        match decodeIndex r2 with
        | none => none
        | some (toIx, r3) =>
          match decodeIndex r3 with
          | none => none
          | some (frIx, _) =>
            some { amplitude := (re, im), amplitudeCallback := none,
                   fromIndex := frIx, toIndex := toIx }
  | _, _ => none

/-- Concrete callback-dependent amplitude used in witnesses below. -/
def callbackHA : HoppingAmplitude :=
  { amplitude := ((0 : ℚ), (0 : ℚ))
    amplitudeCallback := some (fun _ _ => ((2 : ℚ), (3 : ℚ)))
    fromIndex := [1]
    toIndex := [0] }

/-- Concrete fixed-value amplitude used in witnesses below. -/
def fixedHA : HoppingAmplitude :=
  { amplitude := ((5 : ℚ), (0 : ℚ))
    amplitudeCallback := none
    fromIndex := [1]
    toIndex := [0] }

/-- Concrete fixed-value amplitude with the same fixed fields as
`callbackHA` but no callback. -/
def fixedZeroHA : HoppingAmplitude :=
  { amplitude := ((0 : ℚ), (0 : ℚ))
    amplitudeCallback := none
    fromIndex := [1]
    toIndex := [0] }

/-- Concrete sealed model with a two-position basis. -/
def twoSiteModel : Model :=
  { basisList := [[0], [1]], hoppingAmplitudes := [] }

/-- Concrete sealed model with a one-position basis. -/
def oneSiteModel : Model :=
  { basisList := [[0]], hoppingAmplitudes := [] }

/-- Concrete eigenvector buffer for a two-position basis. -/
def evExample : List Cplx :=
  [((1 : ℚ), (0 : ℚ)), ((2 : ℚ), (0 : ℚ)), ((3 : ℚ), (0 : ℚ)), ((4 : ℚ), (0 : ℚ))]

/-- Concrete solver in the Solved state over `twoSiteModel`. -/
def solvedSolverExample : DiagonalizationSolver :=
  { model := some twoSiteModel
    hamiltonian := none
    eigenValues := none
    eigenVectors := some evExample
    maxIterations := 50
    scCallback := none }

/-- Concrete solver holding stale Solved buffers over `oneSiteModel`. -/
def staleSolver : DiagonalizationSolver :=
  { model := some oneSiteModel
    hamiltonian := some [((0 : ℚ), (0 : ℚ))]
    eigenValues := some [(3 : ℚ)]
    eigenVectors := some [((1 : ℚ), (0 : ℚ))]
    maxIterations := 50
    scCallback := none }

/-- A self-consistency callback that never reports convergence. -/
def alwaysFalse : Nat → Bool := fun _ => false

/-- Concrete solver configured with a never-converging callback and an
iteration ceiling of 3. -/
def scSolverExample : DiagonalizationSolver :=
  { model := some twoSiteModel
    hamiltonian := none
    eigenValues := none
    eigenVectors := none
    maxIterations := 3
    scCallback := some alwaysFalse }

/-- Concrete solver with no self-consistency callback. -/
def plainSolverExample : DiagonalizationSolver :=
  { model := some twoSiteModel
    hamiltonian := none
    eigenValues := none
    eigenVectors := none
    maxIterations := 3
    scCallback := none }

/-- Concrete solver with a built two-by-two Hamiltonian. -/
def builtSolverExample : DiagonalizationSolver :=
  { model := some twoSiteModel
    hamiltonian := some
      [((5 : ℚ), (0 : ℚ)), ((1 : ℚ), (0 : ℚ)), ((1 : ℚ), (0 : ℚ)), ((2 : ℚ), (0 : ℚ))]
    eigenValues := none
    eigenVectors := none
    maxIterations := 50
    scCallback := none }

theorem data_mk (l : List Char) : (String.mk l).data = l := rfl

theorem decodeNat_encodeNat (n : Nat) (rest : List Char) :
    decodeNat (encodeNat n ++ rest) = some (n, rest) := by
  induction n with
  | zero => simp [encodeNat, decodeNat]
  | succ k ih => simp [encodeNat, decodeNat, ih]

theorem decodeInt_encodeInt (i : Int) (rest : List Char) :
    decodeInt (encodeInt i ++ rest) = some (i, rest) := by
  by_cases hi : i < 0
  · have h1 : ((i.natAbs : Int)) = -i := by omega
    simp [encodeInt, hi, decodeInt, decodeNat_encodeNat, h1]
  · have h1 : ((i.toNat : Int)) = i := by omega
    simp [encodeInt, hi, decodeInt, decodeNat_encodeNat, h1]

theorem decodeRat_encodeRat (q : ℚ) (rest : List Char) :
    decodeRat (encodeRat q ++ rest) = some (q, rest) := by
  simp [encodeRat, decodeRat, List.append_assoc, decodeInt_encodeInt,
    decodeNat_encodeNat]
  exact Rat.num_div_den q

theorem decodeInts_encodeInts (is : List Int) (rest : List Char) :
    decodeInts is.length (encodeInts is ++ rest) = some (is, rest) := by
  induction is generalizing rest with
  | nil => simp [encodeInts, decodeInts]
  | cons i is ih => simp [encodeInts, decodeInts, List.append_assoc,
      decodeInt_encodeInt, ih]

theorem decodeIndex_encodeIndex (ix : Index) (rest : List Char) :
    decodeIndex (encodeIndex ix ++ rest) = some (ix, rest) := by
  simp [encodeIndex, decodeIndex, List.append_assoc, decodeNat_encodeNat,
    decodeInts_encodeInts]

theorem decodeIndex_encodeIndex_nil (ix : Index) :
    decodeIndex (encodeIndex ix) = some (ix, []) := by
  simpa using decodeIndex_encodeIndex ix []

/-- C4: a HoppingAmplitude has exactly one active value source.
`getAmplitude` evaluates the callback at (toIndex, fromIndex) when one is
set and returns the stored fixed value otherwise, and
`getIsCallbackDependent` is true exactly when a callback is set. -/
theorem C4_value_source (h : HoppingAmplitude) :
    (h.amplitudeCallback = none →
      h.getAmplitude = h.amplitude ∧ h.getIsCallbackDependent = false) ∧
    (∀ f, h.amplitudeCallback = some f →
      h.getAmplitude = f h.toIndex h.fromIndex ∧
        h.getIsCallbackDependent = true) ∧
    (h.getIsCallbackDependent = true ↔ h.amplitudeCallback ≠ none) := by
  refine ⟨?_, ?_, ?_⟩
  · intro hc
    simp [HoppingAmplitude.getAmplitude, HoppingAmplitude.getIsCallbackDependent, hc]
  · intro f hc
    simp [HoppingAmplitude.getAmplitude, HoppingAmplitude.getIsCallbackDependent, hc]
  · cases hc : h.amplitudeCallback with
    | none => simp [HoppingAmplitude.getIsCallbackDependent, hc]
    | some f => simp [HoppingAmplitude.getIsCallbackDependent, hc]

theorem C4_value_source_witness :
    callbackHA.getAmplitude = ((2 : ℚ), (3 : ℚ)) ∧
    callbackHA.getIsCallbackDependent = true ∧
    fixedHA.getAmplitude = ((5 : ℚ), (0 : ℚ)) ∧
    fixedHA.getIsCallbackDependent = false := by
  refine ⟨?_, ?_, ?_, ?_⟩
  · exact ((C4_value_source callbackHA).2.1 (fun _ _ => ((2 : ℚ), (3 : ℚ))) rfl).1
  · exact ((C4_value_source callbackHA).2.1 (fun _ _ => ((2 : ℚ), (3 : ℚ))) rfl).2
  · exact ((C4_value_source fixedHA).1 rfl).1
  · exact ((C4_value_source fixedHA).1 rfl).2

/-- C5: `h + HC` evaluates to the pair of `h` and its Hermitian
conjugate, and the Hermitian conjugate is the mirrored entry: toIndex
and fromIndex swapped and the evaluated complex value conjugated. -/
theorem C5_plus_hermitian_conjugate (h : HoppingAmplitude) :
    h.plusHC = (h, h.getHermitianConjugate) ∧
    h.getHermitianConjugate.toIndex = h.fromIndex ∧
    h.getHermitianConjugate.fromIndex = h.toIndex ∧
    h.getHermitianConjugate.getAmplitude = Cplx.conj h.getAmplitude := by
  refine ⟨rfl, rfl, rfl, ?_⟩
  cases hc : h.amplitudeCallback with
  | none =>
    simp [HoppingAmplitude.getAmplitude, HoppingAmplitude.getHermitianConjugate, hc]
  | some f =>
    simp [HoppingAmplitude.getAmplitude, HoppingAmplitude.getHermitianConjugate, hc]

/-- C9: `toString` is a function of the stored fixed amplitude field and
the two indices alone; in particular two amplitudes sharing those three
fields print identically whatever their callbacks, so a
callback-dependent amplitude prints its (unset) fixed field rather than
the callback-evaluated value. -/
theorem C9_toString_fixed_field (h h' : HoppingAmplitude)
    (ha : h.amplitude = h'.amplitude) (ht : h.toIndex = h'.toIndex)
    (hf : h.fromIndex = h'.fromIndex) :
    h.toString = h'.toString := by
  simp [HoppingAmplitude.toString, ha, ht, hf]

theorem C9_toString_fixed_field_witness :
    HoppingAmplitude.toString callbackHA = HoppingAmplitude.toString fixedZeroHA :=
  C9_toString_fixed_field callbackHA fixedZeroHA rfl rfl rfl

/-- C10: the DOS constructor with a positive resolution stores the
bounds and resolution and allocates a data buffer of exactly
`resolution` entries, each initialized to 0. -/
theorem C10_dos_constructor (lb ub : ℚ) (res : Int) (hres : 0 < res) :
    ((DOS.new lb ub res).data.length : Int) = res ∧
    (∀ x ∈ (DOS.new lb ub res).data, x = 0) ∧
    (DOS.new lb ub res).lowerBound = lb ∧
    (DOS.new lb ub res).upperBound = ub ∧
    (DOS.new lb ub res).resolution = res := by
  refine ⟨?_, ?_, rfl, rfl, rfl⟩
  · simp [DOS.new]
    omega
  · intro x hx
    simp [DOS.new, List.mem_replicate] at hx
    exact hx.2

theorem C10_dos_constructor_witness :
    ((0 : Int) < 4) ∧ ((DOS.new 0 1 4).data.length : Int) = 4 ∧
    (∀ x ∈ (DOS.new 0 1 4).data, x = 0) :=
  ⟨by decide, (C10_dos_constructor 0 1 4 (by decide)).1,
    (C10_dos_constructor 0 1 4 (by decide)).2.1⟩

/-- C1: on a solved driver, `getAmplitude(state, index)` returns the
element `eigenVectors[getBasisSize()*state + getBasisIndex(index)]` of
the flat eigenvector buffer when the index resolves to a basis position,
and fails when the index is outside the declared basis. -/
theorem C1_getAmplitude_reads_eigenvector (s : DiagonalizationSolver)
    (m : Model) (ev : List Cplx) (state : Nat) (ix : Index)
    (hm : s.model = some m) (hev : s.eigenVectors = some ev) :
    (∀ b, m.getBasisIndex ix = some b →
      s.getAmplitude state ix = ev.get? (m.getBasisSize * state + b)) ∧
    (m.getBasisIndex ix = none → s.getAmplitude state ix = none) := by
  constructor
  · intro b hb
    simp [DiagonalizationSolver.getAmplitude, hm, hb, hev]
  · intro hb
    simp [DiagonalizationSolver.getAmplitude, hm, hb]

theorem C1_getAmplitude_reads_eigenvector_witness :
    solvedSolverExample.getAmplitude 1 [1] = some ((4 : ℚ), (0 : ℚ)) ∧
    solvedSolverExample.getAmplitude 1 [5] = none := by
  constructor
  · have h := (C1_getAmplitude_reads_eigenvector solvedSolverExample
      twoSiteModel evExample 1 [1] rfl rfl).1 1 (by decide)
    exact h.trans (by decide)
  · exact (C1_getAmplitude_reads_eigenvector solvedSolverExample
      twoSiteModel evExample 1 [5] rfl rfl).2 (by decide)

theorem C2_counterexample :
    DiagonalizationSolver.new.eigenValues = none ∧
    DiagonalizationSolver.new.eigenVectors = none ∧
    DiagonalizationSolver.new.getEigenValues = none ∧
    DiagonalizationSolver.new.getEigenVectors = none ∧
    plainSolverExample.eigenVectors = none ∧
    plainSolverExample.getAmplitude 0 [0] = none :=
  ⟨rfl, rfl, rfl, rfl, rfl, rfl⟩

/-- C2 (amended): `getEigenValues`, `getEigenVectors` and `getAmplitude`
perform no state check.  On a solver that has a model set but has never
run, the buffer accessors return the stored null pointer and
`getAmplitude` reads the null eigenvector buffer (yielding the sentinel
`none`, not an error); in general the buffer accessors return exactly
the stored buffer pointers and `getAmplitude` reads whatever eigenvector
buffer is stored, whatever the state. -/
theorem C2_accessors_return_stored_buffers (m : Model) :
    ((DiagonalizationSolver.new.setModel m).getEigenValues = none ∧
      (DiagonalizationSolver.new.setModel m).getEigenVectors = none ∧
      ∀ state ix,
        (DiagonalizationSolver.new.setModel m).getAmplitude state ix = none) ∧
    (∀ s : DiagonalizationSolver,
      s.getEigenValues = s.eigenValues ∧ s.getEigenVectors = s.eigenVectors) ∧
    (∀ s : DiagonalizationSolver, s.eigenVectors = none →
      ∀ state ix, s.getAmplitude state ix = none) := by
  refine ⟨⟨rfl, rfl, ?_⟩, fun _ => ⟨rfl, rfl⟩, ?_⟩
  · intro state ix
    cases hb : m.getBasisIndex ix with
    | none =>
      simp [DiagonalizationSolver.getAmplitude, DiagonalizationSolver.setModel,
        DiagonalizationSolver.new, hb]
    | some b =>
      simp [DiagonalizationSolver.getAmplitude, DiagonalizationSolver.setModel,
        DiagonalizationSolver.new, hb]
  · intro s hs state ix
    cases hm : s.model with
    | none => simp [DiagonalizationSolver.getAmplitude, hm]
    | some m' =>
      cases hb : m'.getBasisIndex ix with
      | none => simp [DiagonalizationSolver.getAmplitude, hm, hb]
      | some b => simp [DiagonalizationSolver.getAmplitude, hm, hb, hs]

theorem C2_accessors_return_stored_buffers_witness :
    DiagonalizationSolver.new.getEigenValues = none ∧
    plainSolverExample.getAmplitude 0 [0] = none := by
  constructor
  · exact ((C2_accessors_return_stored_buffers oneSiteModel).2.1
      DiagonalizationSolver.new).1.trans rfl
  · exact (C2_accessors_return_stored_buffers oneSiteModel).2.2
      plainSolverExample rfl 0 [0]

theorem scLoop_always_false (cb : Nat → Bool) (hcb : ∀ k, cb k = false)
    (rem : Nat) :
    ∀ (s : DiagonalizationSolver) (count : Nat),
      (scLoop cb rem (s, count)).2 = count + rem := by
  induction rem with
  | zero =>
    intro s count
    simp [scLoop]
  | succ n ih =>
    intro s count
    simp [scLoop, hcb count, ih]
    omega

/-- C3: with a self-consistency callback that never reports convergence,
`run()` performs exactly `maxIterations` solves; with no callback
configured it performs exactly one solve. -/
theorem C3_run_solve_count (s : DiagonalizationSolver)
    (hmax : 1 ≤ s.maxIterations) :
    (s.scCallback = none → (s.run).2 = 1) ∧
    (∀ cb, s.scCallback = some cb → (∀ k, cb k = false) →
      (s.run).2 = s.maxIterations.toNat) := by
  constructor
  · intro hc
    simp [DiagonalizationSolver.run, hc]
  · intro cb hc hcb
    simp [DiagonalizationSolver.run, hc, scLoop_always_false cb hcb]
    omega

theorem C3_run_solve_count_witness :
    ((1 : Int) ≤ scSolverExample.maxIterations) ∧
    (scSolverExample.run).2 = 3 ∧
    (plainSolverExample.run).2 = 1 := by
  refine ⟨by decide, ?_, ?_⟩
  · exact (C3_run_solve_count scSolverExample (by decide)).2
      alwaysFalse rfl (fun _ => rfl)
  · exact (C3_run_solve_count plainSolverExample (by decide)).1 rfl

/-- C6: after a completed solve, the buffer served by `getEigenValues`
is a basis-size-length sequence in non-decreasing order. -/
theorem C6_eigenvalues_sorted (s : DiagonalizationSolver) (m : Model)
    (h : List Cplx) (hm : s.model = some m) (hh : s.hamiltonian = some h) :
    ∃ evs, (s.solve).getEigenValues = some evs ∧
      evs.length = m.getBasisSize ∧ List.Sorted (fun a b => a ≤ b) evs := by
  refine ⟨List.insertionSort (fun a b => a ≤ b) (diagonalSpectrum m.getBasisSize h),
    ?_, ?_, ?_⟩
  · simp [DiagonalizationSolver.solve, DiagonalizationSolver.getEigenValues, hm, hh]
  · simp [diagonalSpectrum]
  · exact List.sorted_insertionSort _ _

theorem C6_eigenvalues_sorted_witness :
    (∃ evs, (builtSolverExample.solve).getEigenValues = some evs ∧
      evs.length = twoSiteModel.getBasisSize ∧
      List.Sorted (fun a b => a ≤ b) evs) ∧
    (builtSolverExample.solve).getEigenValues = some [(2 : ℚ), (5 : ℚ)] :=
  ⟨C6_eigenvalues_sorted builtSolverExample twoSiteModel _ rfl rfl, by decide⟩

theorem C7_counterexample :
    twoSiteModel.getBasisSize ≠ oneSiteModel.getBasisSize ∧
    staleSolver.model = some oneSiteModel ∧
    staleSolver.eigenValues = some [(3 : ℚ)] ∧
    (staleSolver.setModel twoSiteModel).getEigenValues = some [(3 : ℚ)] ∧
    (staleSolver.setModel twoSiteModel).getEigenVectors = some [((1 : ℚ), (0 : ℚ))] ∧
    (staleSolver.setModel twoSiteModel).hamiltonian = some [((0 : ℚ), (0 : ℚ))] :=
  ⟨by decide, rfl, rfl, rfl, rfl, rfl⟩

/-- C7 (amended): `setModel` only stores the model pointer; every other
member, in particular the Hamiltonian and eigen buffers, is left
untouched, so previously solved buffers survive a model change. -/
theorem C7_setModel_only_stores_pointer (s : DiagonalizationSolver) (m : Model) :
    (s.setModel m).model = some m ∧
    (s.setModel m).hamiltonian = s.hamiltonian ∧
    (s.setModel m).eigenValues = s.eigenValues ∧
    (s.setModel m).eigenVectors = s.eigenVectors ∧
    (s.setModel m).maxIterations = s.maxIterations ∧
    (s.setModel m).scCallback = s.scCallback :=
  ⟨rfl, rfl, rfl, rfl, rfl, rfl⟩

/-- C8: serializing a HoppingAmplitude and constructing a new one from
the serialization string with the same mode reproduces an equivalent
entry: same toIndex, same fromIndex, same callback marker, and the same
fixed complex value when the entry is value-carrying. -/
theorem C8_serialize_roundtrip (h : HoppingAmplitude) (mode : Mode) :
    ∃ h', HoppingAmplitude.fromSerialization (h.serialize mode) mode = some h' ∧
      h'.toIndex = h.toIndex ∧ h'.fromIndex = h.fromIndex ∧
      h'.getIsCallbackDependent = h.getIsCallbackDependent ∧
      (h.amplitudeCallback = none → h'.amplitude = h.amplitude) := by
  cases hc : h.amplitudeCallback with
  | none =>
    refine ⟨{ amplitude := h.amplitude, amplitudeCallback := none,
              fromIndex := h.fromIndex, toIndex := h.toIndex }, ?_, rfl, rfl, ?_,
              fun _ => rfl⟩
    · cases mode <;>
        simp [HoppingAmplitude.serialize, HoppingAmplitude.fromSerialization, hc,
          data_mk, List.append_assoc, decodeRat_encodeRat, decodeIndex_encodeIndex,
          decodeIndex_encodeIndex_nil]
    · simp [HoppingAmplitude.getIsCallbackDependent, hc]
  | some f =>
    refine ⟨{ amplitude := ((0 : ℚ), (0 : ℚ)),
              amplitudeCallback := some placeholderCallback,
              fromIndex := h.fromIndex, toIndex := h.toIndex }, ?_, rfl, rfl, ?_, ?_⟩
    · cases mode <;>
        simp [HoppingAmplitude.serialize, HoppingAmplitude.fromSerialization, hc,
          data_mk, List.append_assoc, decodeIndex_encodeIndex,
          decodeIndex_encodeIndex_nil]
    · simp [HoppingAmplitude.getIsCallbackDependent, hc]
    · intro hnone
      cases hnone

end TBTK
